import Mathlib

/-!
Shallow embedding of the JSONL training-data validators of this
repository: validate_jsonl in src/main.py (content-string validator,
lines 48-90) and validate_jsonl in src/openai_upload_file.py
(file-based validator, lines 12-73).  Both validators iterate over
lines, skip blank lines, parse each remaining line with the external
structured-text line parser (json.loads), auto-detect the training-data
format from the first record with recognizable keys, and apply
format-specific structural checks.  The embedding models the Python
membership and subscript operators including the TypeError cases the
source can hit, so that uncaught exceptions are visible as an
Except.error outcome distinct from a returned verdict.
-/

/-- JSON-like values produced by the external line parser, mirroring
the output domain of the Python json module: None, bool, int, str,
list, dict.  A faithful parser yields objects whose keys are pairwise
distinct, as Python dicts are; numbers are modelled as integers since
the validators never inspect numeric values. -/
inductive JValue where
  | null : JValue
  | bool : Bool → JValue
  | num : Int → JValue
  | str : String → JValue
  | arr : List JValue → JValue
  | obj : List (String × JValue) → JValue

/-- Characters removed by the Python str.strip method with no
arguments, restricted to the ASCII whitespace characters. -/
def isWsChar (c : Char) : Bool :=
  c = ' ' || c = '\t' || c = '\n' || c = '\r' || c = '\x0B' || c = '\x0C'

/-- Python str.strip with no arguments: drop whitespace on both ends. -/
def pyStripChars (cs : List Char) : List Char :=
  ((cs.dropWhile isWsChar).reverse.dropWhile isWsChar).reverse

/-- Python line.strip() on a string value. -/
def pyStrip (s : String) : String :=
  String.mk (pyStripChars s.toList)

/-- Python str.split with a one-character separator: every occurrence
splits, empty pieces are kept. -/
def splitOnChar (sep : Char) : List Char → List (List Char)
  | [] => [[]]
  | c :: cs =>
    if c = sep then [] :: splitOnChar sep cs
    else
      match splitOnChar sep cs with
      | [] => [[c]]
      | g :: gs => (c :: g) :: gs

/-- The line list the main validator iterates over, computed in
src/main.py line 55 as content.strip().split on the newline
character. -/
def pyLines (content : String) : List String :=
  (splitOnChar '\n' (pyStripChars content.toList)).map String.mk

/-- Key membership in the association list backing a JSON object. -/
def hasKey (kvs : List (String × JValue)) (k : String) : Bool :=
  kvs.any (fun kv => kv.1 == k)

def startsWithChars : List Char → List Char → Bool
  | [], _ => true
  | _ :: _, [] => false
  | p :: ps, c :: cs => p = c && startsWithChars ps cs

/-- Substring occurrence test over character lists. -/
def occursIn (pat : List Char) : List Char → Bool
  | [] => pat.isEmpty
  | c :: cs => startsWithChars pat (c :: cs) || occursIn pat cs

/-- Python substring membership: pat in s for two strings. -/
def strMem (pat s : String) : Bool :=
  occursIn pat.toList s.toList

/-- The Python membership test key in v as the validators use it.
Dict operands test key membership, list operands test element equality
with the key string, string operands test substring occurrence; every
other operand raises TypeError, which the validators do not catch. -/
def pyContains (key : String) (v : JValue) : Except String Bool :=
  match v with
  | .obj kvs => .ok (hasKey kvs key)
  | .arr xs => .ok (xs.any (fun x => match x with | .str t => t == key | _ => false))
  | .str s => .ok (strMem key s)
  | .null => .error "argument of type \u0027NoneType\u0027 is not iterable"
  | .bool _ => .error "argument of type \u0027bool\u0027 is not iterable"
  | .num _ => .error "argument of type \u0027int\u0027 is not iterable"

/-- The Python subscript v[key] for a string key, as used in
data["messages"]. -/
def pySubscript (v : JValue) (key : String) : Except String JValue :=
  match v with
  | .obj kvs =>
    match kvs.find? (fun kv => kv.1 == key) with
    | some kv => .ok kv.2
    | none => .error ("KeyError: " ++ key)
  | .str _ => .error "string indices must be integers"
  | .arr _ => .error "list indices must be integers or slices, not str"
  | .null => .error "\u0027NoneType\u0027 object is not subscriptable"
  | .bool _ => .error "\u0027bool\u0027 object is not subscriptable"
  | .num _ => .error "\u0027int\u0027 object is not subscriptable"

/-- The two admissible training-data formats. -/
inductive JFormat where
  | chat : JFormat
  | legacy : JFormat

/-- Loop state of both validators: the running count of non-blank
lines (line_count in main.py, line_count in openai_upload_file.py)
and the locked format, if any (format_type). -/
structure VState where
  line_count : Nat
  format_type : Option JFormat

/-- Outcome of a per-record structural check: the check passes, the
function returns early with a result, or an uncaught Python exception
propagates. -/
inductive COut (ρ : Type) where
  | pass : COut ρ
  | ret : ρ → COut ρ
  | raise : String → COut ρ

/-- Outcome of processing one line of input: the loop continues with a
new state, the function returns early, or an uncaught Python exception
propagates. -/
inductive SOut (ρ : Type) where
  | next : VState → SOut ρ
  | ret : ρ → SOut ρ
  | raise : String → SOut ρ

/-- Format auto-detection, run on every parsed record while the format
is still undetermined: main.py lines 66-70 and
openai_upload_file.py lines 42-46.  The record is first probed for a
messages key, then for prompt and completion with Python
short-circuit evaluation. -/
def detectFmt (data : JValue) : Except String (Option JFormat) :=
  match pyContains "messages" data with
  | .error e => .error e
  | .ok true => .ok (some JFormat.chat)
  | .ok false =>
    match pyContains "prompt" data with
    | .error e => .error e
    | .ok false => .ok none
    | .ok true =>
      match pyContains "completion" data with
      | .error e => .error e
      | .ok false => .ok none
      | .ok true => .ok (some JFormat.legacy)

/-- Every per-line diagnostic of both validators starts with the line
number in this shape. -/
def lineMsg (n : Nat) (body : String) : String :=
  "行" ++ toString n ++ ": " ++ body

/-- Per-message loop of the chat check, main.py lines 78-80.  Each
membership test can raise TypeError on non-container elements, and the
two tests short-circuit as in Python. -/
def checkMsgs (line_num : Nat) : List JValue → COut (Bool × String × Nat)
  | [] => COut.pass
  | msg :: rest =>
    match pyContains "role" msg with
    | .error e => COut.raise e
    | .ok false => COut.ret (false, lineMsg line_num "メッセージ形式が不正です", 0)
    | .ok true =>
      match pyContains "content" msg with
      | .error e => COut.raise e
      | .ok false => COut.ret (false, lineMsg line_num "メッセージ形式が不正です", 0)
      | .ok true => checkMsgs line_num rest

/-- Chat-format structural check, main.py lines 72-80. -/
def checkChat (line_num : Nat) (data : JValue) : COut (Bool × String × Nat) :=
  match pyContains "messages" data with
  | .error e => COut.raise e
  | .ok false => COut.ret (false, lineMsg line_num "\u0027messages\u0027キーがありません", 0)
  | .ok true =>
    match pySubscript data "messages" with
    | .error e => COut.raise e
    | .ok messages =>
      match messages with
      | .arr xs =>
        if xs.length = 0 then
          COut.ret (false, lineMsg line_num "\u0027messages\u0027が無効です", 0)
        else checkMsgs line_num xs
      | _ => COut.ret (false, lineMsg line_num "\u0027messages\u0027が無効です", 0)

/-- Legacy-format structural check, main.py lines 82-84. -/
def checkLegacy (line_num : Nat) (data : JValue) : COut (Bool × String × Nat) :=
  match pyContains "prompt" data with
  | .error e => COut.raise e
  | .ok false =>
    COut.ret (false, lineMsg line_num "\u0027prompt\u0027または\u0027completion\u0027がありません", 0)
  | .ok true =>
    match pyContains "completion" data with
    | .error e => COut.raise e
    | .ok false =>
      COut.ret (false, lineMsg line_num "\u0027prompt\u0027または\u0027completion\u0027がありません", 0)
    | .ok true => COut.pass

/-- Dispatch of the format-specific checks on the possibly
undetermined format, main.py lines 72-84: no check applies while the
format is undetermined. -/
def checkRecord (fmt : Option JFormat) (line_num : Nat) (data : JValue) :
    COut (Bool × String × Nat) :=
  match fmt with
  | some JFormat.chat => checkChat line_num data
  | some JFormat.legacy => checkLegacy line_num data
  | none => COut.pass

/-- The external structured-text line parser (json.loads in the
source): maps one line of text to a value or to a parse diagnostic. -/
abbrev LineParse := String → Except String JValue

/-- One iteration of the main.py validation loop, lines 59-87: skip
blank lines, parse, detect the format while undetermined, then apply
the format-specific check.  Only parse failures are caught
(except json.JSONDecodeError); a TypeError from a membership or
subscript operation propagates out of the function. -/
def mainStep (P : LineParse) (st : VState) (line_num : Nat) (line : String) :
    SOut (Bool × String × Nat) :=
  if pyStrip line = "" then SOut.next st
  else
    match P line with
    | .error e => SOut.ret (false, lineMsg line_num ("JSON形式エラー - " ++ e), 0)
    | .ok data =>
      match (match st.format_type with
             | some f => Except.ok (some f)
             | none => detectFmt data) with
      | .error e => SOut.raise e
      | .ok fmt =>
        match checkRecord fmt line_num data with
        | COut.pass => SOut.next { line_count := st.line_count + 1, format_type := fmt }
        | COut.ret r => SOut.ret r
        | COut.raise e => SOut.raise e

/-- Label chosen in main.py line 89: the legacy label is also used
when the format was never determined. -/
def formatLabel : Option JFormat → String
  | some JFormat.chat => "チャット形式"
  | _ => "レガシー形式"

/-- Success message of main.py line 90. -/
def mainOkMsg (fmt : Option JFormat) (c : Nat) : String :=
  formatLabel fmt ++ ": " ++ toString c ++ "サンプル"

/-- The main.py validation loop over the line list, lines 59-90. -/
def runLines (P : LineParse) : VState → Nat → List String → Except String (Bool × String × Nat)
  | st, _, [] => Except.ok (true, mainOkMsg st.format_type st.line_count, st.line_count)
  | st, n, line :: rest =>
    match mainStep P st n line with
    | SOut.next st2 => runLines P st2 (n + 1) rest
    | SOut.ret r => Except.ok r
    | SOut.raise e => Except.error e

/-- validate_jsonl of src/main.py lines 48-90.  An Except.ok value is
the returned triple (is_valid, message, line_count); an Except.error
value is an uncaught Python exception escaping to the caller. -/
def validate_jsonl (P : LineParse) (content : String) : Except String (Bool × String × Nat) :=
  runLines P { line_count := 0, format_type := none } 1 (pyLines content)

/-- Per-message loop of the chat check in openai_upload_file.py
lines 57-59. -/
def uploadCheckMsgs (line_num : Nat) : List JValue → COut (Bool × String)
  | [] => COut.pass
  | msg :: rest =>
    match pyContains "role" msg with
    | .error e => COut.raise e
    | .ok false =>
      COut.ret (false, lineMsg line_num "メッセージに\u0027role\u0027または\u0027content\u0027がありません")
    | .ok true =>
      match pyContains "content" msg with
      | .error e => COut.raise e
      | .ok false =>
        COut.ret (false, lineMsg line_num "メッセージに\u0027role\u0027または\u0027content\u0027がありません")
      | .ok true => uploadCheckMsgs line_num rest

/-- Chat-format structural check of openai_upload_file.py lines 49-59:
unlike main.py, the non-list case and the empty case return distinct
messages. -/
def uploadCheckChat (line_num : Nat) (data : JValue) : COut (Bool × String) :=
  match pyContains "messages" data with
  | .error e => COut.raise e
  | .ok false => COut.ret (false, lineMsg line_num "\u0027messages\u0027キーがありません")
  | .ok true =>
    match pySubscript data "messages" with
    | .error e => COut.raise e
    | .ok messages =>
      match messages with
      | .arr xs =>
        if xs.length = 0 then COut.ret (false, lineMsg line_num "\u0027messages\u0027が空です")
        else uploadCheckMsgs line_num xs
      | _ => COut.ret (false, lineMsg line_num "\u0027messages\u0027は配列である必要があります")

/-- Legacy-format structural check of openai_upload_file.py
lines 62-64. -/
def uploadCheckLegacy (line_num : Nat) (data : JValue) : COut (Bool × String) :=
  match pyContains "prompt" data with
  | .error e => COut.raise e
  | .ok false =>
    COut.ret (false, lineMsg line_num "\u0027prompt\u0027または\u0027completion\u0027キーがありません")
  | .ok true =>
    match pyContains "completion" data with
    | .error e => COut.raise e
    | .ok false =>
      COut.ret (false, lineMsg line_num "\u0027prompt\u0027または\u0027completion\u0027キーがありません")
    | .ok true => COut.pass

/-- Dispatch of the openai_upload_file.py checks. -/
def uploadCheckRecord (fmt : Option JFormat) (line_num : Nat) (data : JValue) :
    COut (Bool × String) :=
  match fmt with
  | some JFormat.chat => uploadCheckChat line_num data
  | some JFormat.legacy => uploadCheckLegacy line_num data
  | none => COut.pass

/-- One iteration of the openai_upload_file.py loop, lines 34-67. -/
def uploadStep (P : LineParse) (st : VState) (line_num : Nat) (line : String) :
    SOut (Bool × String) :=
  if pyStrip line = "" then SOut.next st
  else
    match P line with
    | .error e => SOut.ret (false, lineMsg line_num ("JSON形式が正しくありません - " ++ e))
    | .ok data =>
      match (match st.format_type with
             | some f => Except.ok (some f)
             | none => detectFmt data) with
      | .error e => SOut.raise e
      | .ok fmt =>
        match uploadCheckRecord fmt line_num data with
        | COut.pass => SOut.next { line_count := st.line_count + 1, format_type := fmt }
        | COut.ret r => SOut.ret r
        | COut.raise e => SOut.raise e

/-- Label chosen in openai_upload_file.py line 69. -/
def uploadLabel : Option JFormat → String
  | some JFormat.chat => "チャット形式"
  | _ => "古い形式"

/-- Success message of openai_upload_file.py line 70. -/
def uploadOkMsg (fmt : Option JFormat) (c : Nat) : String :=
  "バリデーション成功 (" ++ uploadLabel fmt ++ "): " ++ toString c ++ "行"

/-- The openai_upload_file.py loop over the line list, lines 34-70. -/
def uploadRunLines (P : LineParse) : VState → Nat → List String → Except String (Bool × String)
  | st, _, [] => Except.ok (true, uploadOkMsg st.format_type st.line_count)
  | st, n, line :: rest =>
    match uploadStep P st n line with
    | SOut.next st2 => uploadRunLines P st2 (n + 1) rest
    | SOut.ret r => Except.ok r
    | SOut.raise e => Except.error e

/-- validate_jsonl of src/openai_upload_file.py lines 12-73, modelled
over the sequence of lines read from the file; file existence and IO
sit outside the embedding.  The enclosing try/except Exception of
lines 29-73 turns any uncaught exception from the loop into a
returned rejection. -/
def upload_validate_jsonl (P : LineParse) (ls : List String) : Bool × String :=
  match uploadRunLines P { line_count := 0, format_type := none } 1 ls with
  | .ok r => r
  | .error e => (false, "バリデーションエラー: " ++ e)

/-- Modelled from the spec, sections 3 and 8: once the format is
locked, it never changes, and every subsequent record is validated
against the locked format rules.  This loop never consults the
detection step and carries the fixed format f; claim C5 states that
the main.py loop started in a locked state coincides with it. -/
def runLocked (P : LineParse) (f : JFormat) : Nat → Nat → List String → Except String (Bool × String × Nat)
  | lc, _, [] => Except.ok (true, mainOkMsg (some f) lc, lc)
  | lc, n, line :: rest =>
    if pyStrip line = "" then runLocked P f lc (n + 1) rest
    else
      match P line with
      | .error e => Except.ok (false, lineMsg n ("JSON形式エラー - " ++ e), 0)
      | .ok data =>
        match checkRecord (some f) n data with
        | COut.pass => runLocked P f (lc + 1) (n + 1) rest
        | COut.ret r => Except.ok r
        | COut.raise e => Except.error e

/-- Number of non-blank lines of a line list. -/
def countNB (ls : List String) : Nat :=
  (ls.filter (fun l => pyStrip l != "")).length

/-- First non-blank line of a line list. -/
def firstNB (ls : List String) : Option String :=
  ls.find? (fun l => pyStrip l != "")

/-- State reached after a list of lines when the loop neither returns
early nor raises on them. -/
def stateAfter (P : LineParse) : VState → Nat → List String → Option VState
  | st, _, [] => some st
  | st, n, line :: rest =>
    match mainStep P st n line with
    | SOut.next st2 => stateAfter P st2 (n + 1) rest
    | _ => none

/-- A chat message as the claims require it: a mapping carrying both a
role key and a content key. -/
def isRoleContentMap : JValue → Bool
  | .obj kvs => hasKey kvs "role" && hasKey kvs "content"
  | _ => false

/-- Chat-format record validity as claim C4 states it: a mapping whose
messages field is a non-empty sequence of mappings, each carrying role
and content. -/
def chatValidRecord : JValue → Bool
  | .obj kvs =>
    match kvs.find? (fun kv => kv.1 == "messages") with
    | some kv =>
      match kv.2 with
      | .arr [] => false
      | .arr xs => xs.all isRoleContentMap
      | _ => false
    | none => false
  | _ => false

/-- Legacy-format record validity as claim C4 states it: a mapping
carrying both prompt and completion. -/
def legacyValidRecord : JValue → Bool
  | .obj kvs => hasKey kvs "prompt" && hasKey kvs "completion"
  | _ => false

/-- Record validity for a given format. -/
def validRecord : JFormat → JValue → Bool
  | JFormat.chat, v => chatValidRecord v
  | JFormat.legacy, v => legacyValidRecord v

/-- Verdict component of a main-validator outcome, none when an
exception escaped. -/
def okOf : Except String (Bool × String × Nat) → Option Bool
  | .ok (b, _, _) => some b
  | .error _ => none

/-- Count component of a main-validator outcome, none when an
exception escaped. -/
def countOf : Except String (Bool × String × Nat) → Option Nat
  | .ok (_, _, c) => some c
  | .error _ => none

/-- Agreement of two main-validator outcomes up to diagnostic wording:
same exception, or same verdict and count with equal messages on
success. -/
def SameVerdict : Except String (Bool × String × Nat) → Except String (Bool × String × Nat) → Prop
  | .error e1, .error e2 => e1 = e2
  | .ok (b1, m1, c1), .ok (b2, m2, c2) => b1 = b2 ∧ c1 = c2 ∧ (b1 = true → m1 = m2)
  | _, _ => False

/-- Correspondence of the per-record check outcomes of the two
validators: same control flow and verdict, messages unconstrained. -/
def CRel : COut (Bool × String × Nat) → COut (Bool × String) → Prop
  | COut.pass, COut.pass => True
  | COut.ret (b1, _, _), COut.ret (b2, _) => b1 = b2
  | COut.raise e1, COut.raise e2 => e1 = e2
  | _, _ => False

/-- Correspondence of the per-line outcomes of the two validators. -/
def SRel : SOut (Bool × String × Nat) → SOut (Bool × String) → Prop
  | SOut.next s1, SOut.next s2 => s1 = s2
  | SOut.ret (b1, _, _), SOut.ret (b2, _) => b1 = b2
  | SOut.raise e1, SOut.raise e2 => e1 = e2
  | _, _ => False

/-- Correspondence of the two loop results: same exception, or same
verdict. -/
def RRel : Except String (Bool × String × Nat) → Except String (Bool × String) → Prop
  | .ok (b1, _, _), .ok (b2, _) => b1 = b2
  | .error e1, .error e2 => e1 = e2
  | _, _ => False

/-- Stack frames of the demonstration parser: an array being filled,
or an object being filled together with the key whose value is
pending. -/
inductive PFrame where
  | arrF : List JValue → PFrame
  | objF : List (String × JValue) → String → PFrame

/-- JSON whitespace skipping for the demonstration parser. -/
def skipWs (cs : List Char) : List Char :=
  cs.dropWhile (fun c => c = ' ' || c = '\t' || c = '\n' || c = '\r')

/-- String-literal body scanning for the demonstration parser: plain
characters up to the closing quote, no escapes. -/
def pStrAux : List Char → List Char → Option (String × List Char)
  | _, [] => none
  | acc, c :: rest =>
    if c = '"' then some (String.mk acc.reverse, rest)
    else if c = '\\' then none
    else pStrAux (c :: acc) rest

def pNatGo : Nat → List Char → Nat × List Char
  | acc, [] => (acc, [])
  | acc, c :: rest =>
    if c.isDigit then pNatGo (acc * 10 + (c.toNat - 48)) rest
    else (acc, c :: rest)

/-- Unsigned integer literal scanning for the demonstration parser. -/
def pNat : List Char → Option (Nat × List Char)
  | [] => none
  | c :: rest => if c.isDigit then some (pNatGo 0 (c :: rest)) else none

/-- Fuel-driven core of the demonstration parser: a value is expected
when the pending slot is none, and a finished value is combined with
the frame stack when the pending slot is some v. -/
def pRun : Nat → List PFrame → Option JValue → List Char → Except String (JValue × List Char)
  | 0, _, _, _ => .error "parse fuel exhausted"
  | Nat.succ fuel, stack, none, cs =>
    match skipWs cs with
    | [] => .error "Expecting value"
    | c :: rest =>
      if c = '\x7B' then
        match skipWs rest with
        | '\x7D' :: r2 => pRun fuel stack (some (JValue.obj [])) r2
        | '"' :: r2 =>
          match pStrAux [] r2 with
          | none => .error "Invalid string"
          | some (k, r3) =>
            match skipWs r3 with
            | ':' :: r4 => pRun fuel (PFrame.objF [] k :: stack) none r4
            | _ => .error "Expecting colon delimiter"
        | _ => .error "Expecting property name"
      else if c = '[' then
        match skipWs rest with
        | ']' :: r2 => pRun fuel stack (some (JValue.arr [])) r2
        | _ => pRun fuel (PFrame.arrF [] :: stack) none rest
      else if c = '"' then
        match pStrAux [] rest with
        | none => .error "Invalid string"
        | some (s, r2) => pRun fuel stack (some (JValue.str s)) r2
      else if c = 't' then
        match rest with
        | 'r' :: 'u' :: 'e' :: r2 => pRun fuel stack (some (JValue.bool true)) r2
        | _ => .error "Expecting value"
      else if c = 'f' then
        match rest with
        | 'a' :: 'l' :: 's' :: 'e' :: r2 => pRun fuel stack (some (JValue.bool false)) r2
        | _ => .error "Expecting value"
      else if c = 'n' then
        match rest with
        | 'u' :: 'l' :: 'l' :: r2 => pRun fuel stack (some JValue.null) r2
        | _ => .error "Expecting value"
      else if c = '-' then
        match pNat rest with
        | some (n, r2) => pRun fuel stack (some (JValue.num (-(n : Int)))) r2
        | none => .error "Expecting value"
      else if c.isDigit then
        match pNat (c :: rest) with
        | some (n, r2) => pRun fuel stack (some (JValue.num (n : Int))) r2
        | none => .error "Expecting value"
      else .error "Expecting value"
  | Nat.succ fuel, stack, some v, cs =>
    match stack with
    | [] => .ok (v, cs)
    | PFrame.arrF acc :: stack2 =>
      match skipWs cs with
      | ',' :: r2 => pRun fuel (PFrame.arrF (v :: acc) :: stack2) none r2
      | ']' :: r2 => pRun fuel stack2 (some (JValue.arr (v :: acc).reverse)) r2
      | _ => .error "Expecting comma delimiter"
    | PFrame.objF acc k :: stack2 =>
      match skipWs cs with
      | ',' :: r2 =>
        match skipWs r2 with
        | '"' :: r3 =>
          match pStrAux [] r3 with
          | none => .error "Invalid string"
          | some (k2, r4) =>
            match skipWs r4 with
            | ':' :: r5 => pRun fuel (PFrame.objF ((k, v) :: acc) k2 :: stack2) none r5
            | _ => .error "Expecting colon delimiter"
        | _ => .error "Expecting property name"
      | '\x7D' :: r2 => pRun fuel stack2 (some (JValue.obj ((k, v) :: acc).reverse)) r2
      | _ => .error "Expecting comma delimiter"

/-- Demonstration instance of the external line parser: a small JSON
reader sufficient for the concrete inputs that witnesses and
counterexamples feed to the validators.  It covers objects, arrays,
escape-free strings, integers, true, false and null, and rejects
trailing garbage. -/
def demoParse (s : String) : Except String JValue :=
  match pRun (2 * s.toList.length + 8) [] none s.toList with
  | .error e => .error e
  | .ok (v, rest) => if skipWs rest = [] then .ok v else .error "Extra data"

/-! Counting and list helper lemmas. -/

theorem countNB_nil : countNB [] = 0 := rfl

theorem countNB_cons_blank {l : String} {ls : List String} (hb : pyStrip l = "") :
    countNB (l :: ls) = countNB ls := by
  simp [countNB, List.filter_cons, hb]

theorem countNB_cons_nb {l : String} {ls : List String} (hb : pyStrip l ≠ "") :
    countNB (l :: ls) = countNB ls + 1 := by
  simp [countNB, List.filter_cons, hb]

theorem firstNB_cons_blank {l : String} {ls : List String} (hb : pyStrip l = "") :
    firstNB (l :: ls) = firstNB ls := by
  simp [firstNB, List.find?_cons_of_neg, hb]

theorem firstNB_cons_nb {l : String} {ls : List String} (hb : pyStrip l ≠ "") :
    firstNB (l :: ls) = some l := by
  simp [firstNB, List.find?_cons_of_pos, hb]

theorem hasKey_of_find {kvs : List (String × JValue)} {k : String} {kv : String × JValue}
    (h : kvs.find? (fun x => x.1 == k) = some kv) : hasKey kvs k = true := by
  induction kvs with
  | nil => simp at h
  | cons y ys ih =>
    by_cases hy : (y.1 == k) = true
    · simp [hasKey, hy]
    · rw [List.find?_cons_of_neg _ (by simp [hy])] at h
      have := ih h
      simp [hasKey] at this ⊢
      exact Or.inr this

/-! Per-record checks pass on records valid for the locked format. -/

theorem checkMsgs_pass (n : Nat) :
    ∀ (xs : List JValue), xs.all isRoleContentMap = true → checkMsgs n xs = COut.pass := by
  intro xs
  induction xs with
  | nil => intro _; rfl
  | cons x rest ih =>
    intro h
    rw [List.all_cons, Bool.and_eq_true] at h
    obtain ⟨hx, hrest⟩ := h
    cases x with
    | obj kvs =>
      rw [isRoleContentMap, Bool.and_eq_true] at hx
      obtain ⟨hr, hc⟩ := hx
      simp [checkMsgs, pyContains, hr, hc]
      exact ih hrest
    | null => simp [isRoleContentMap] at hx
    | bool b => simp [isRoleContentMap] at hx
    | num m => simp [isRoleContentMap] at hx
    | str s => simp [isRoleContentMap] at hx
    | arr ys => simp [isRoleContentMap] at hx

theorem checkChat_pass {n : Nat} {v : JValue} (h : chatValidRecord v = true) :
    checkChat n v = COut.pass := by
  cases v with
  | obj kvs =>
    rw [chatValidRecord] at h
    cases hf : kvs.find? (fun kv => kv.1 == "messages") with
    | none => rw [hf] at h; simp at h
    | some kv =>
      rw [hf] at h
      have h2 : (match kv.2 with
        | JValue.arr [] => false
        | JValue.arr xs => xs.all isRoleContentMap
        | _ => false) = true := h
      have hmem : hasKey kvs "messages" = true := hasKey_of_find hf
      cases hkv : kv.2 with
      | arr xs =>
        rw [hkv] at h2
        cases xs with
        | nil => simp at h2
        | cons x rest =>
          have h3 : (x :: rest).all isRoleContentMap = true := h2
          simp only [checkChat, pyContains, hmem, pySubscript, hf, hkv]
          simp only [List.length_cons]
          rw [if_neg (by omega)]
          exact checkMsgs_pass n _ h3
      | null => rw [hkv] at h2; simp at h2
      | bool b => rw [hkv] at h2; simp at h2
      | num m => rw [hkv] at h2; simp at h2
      | str s => rw [hkv] at h2; simp at h2
      | obj kvs2 => rw [hkv] at h2; simp at h2
  | null => simp [chatValidRecord] at h
  | bool b => simp [chatValidRecord] at h
  | num m => simp [chatValidRecord] at h
  | str s => simp [chatValidRecord] at h
  | arr ys => simp [chatValidRecord] at h

theorem checkLegacy_pass {n : Nat} {v : JValue} (h : legacyValidRecord v = true) :
    checkLegacy n v = COut.pass := by
  cases v with
  | obj kvs =>
    rw [legacyValidRecord, Bool.and_eq_true] at h
    obtain ⟨hp, hc⟩ := h
    simp [checkLegacy, pyContains, hp, hc]
  | null => simp [legacyValidRecord] at h
  | bool b => simp [legacyValidRecord] at h
  | num m => simp [legacyValidRecord] at h
  | str s => simp [legacyValidRecord] at h
  | arr ys => simp [legacyValidRecord] at h

theorem checkRecord_pass {fmt : JFormat} {n : Nat} {v : JValue}
    (h : validRecord fmt v = true) : checkRecord (some fmt) n v = COut.pass := by
  cases fmt with
  | chat => exact checkChat_pass h
  | legacy => exact checkLegacy_pass h

/-! Runs of the main loop on valid, undetermined-format and blank
inputs. -/

theorem runLines_locked_valid (P : LineParse) (fmt : JFormat) :
    ∀ (ls : List String) (c n : Nat),
      (∀ l ∈ ls, pyStrip l ≠ "" → ∃ v, P l = Except.ok v ∧ validRecord fmt v = true) →
      runLines P { line_count := c, format_type := some fmt } n ls =
        Except.ok (true, mainOkMsg (some fmt) (c + countNB ls), c + countNB ls) := by
  intro ls
  induction ls with
  | nil => intro c n _; simp [runLines, countNB]
  | cons l rest ih =>
    intro c n h
    by_cases hb : pyStrip l = ""
    · rw [runLines, show mainStep P { line_count := c, format_type := some fmt } n l =
        SOut.next { line_count := c, format_type := some fmt } from by simp [mainStep, hb]]
      rw [countNB_cons_blank hb]
      exact ih c (n + 1) (fun l2 hl2 hnb => h l2 (List.mem_cons_of_mem _ hl2) hnb)
    · obtain ⟨v, hv, hval⟩ := h l (List.mem_cons_self _ _) hb
      have hcp : checkRecord (some fmt) n v = COut.pass := checkRecord_pass hval
      rw [runLines, show mainStep P { line_count := c, format_type := some fmt } n l =
        SOut.next { line_count := c + 1, format_type := some fmt } from by
          simp [mainStep, hb, hv, hcp]]
      rw [countNB_cons_nb hb]
      have e : c + (countNB rest + 1) = (c + 1) + countNB rest := by omega
      rw [e]
      exact ih (c + 1) (n + 1) (fun l2 hl2 hnb => h l2 (List.mem_cons_of_mem _ hl2) hnb)

theorem runLines_detect_valid (P : LineParse) (fmt : JFormat) :
    ∀ (ls : List String) (c n : Nat),
      (∃ l v, firstNB ls = some l ∧ P l = Except.ok v ∧
        detectFmt v = Except.ok (some fmt)) →
      (∀ l ∈ ls, pyStrip l ≠ "" → ∃ v, P l = Except.ok v ∧ validRecord fmt v = true) →
      runLines P { line_count := c, format_type := none } n ls =
        Except.ok (true, mainOkMsg (some fmt) (c + countNB ls), c + countNB ls) := by
  intro ls
  induction ls with
  | nil =>
    intro c n hdet _
    obtain ⟨l, v, hfirst, _⟩ := hdet
    simp [firstNB] at hfirst
  | cons l rest ih =>
    intro c n hdet hval
    by_cases hb : pyStrip l = ""
    · rw [runLines, show mainStep P { line_count := c, format_type := none } n l =
        SOut.next { line_count := c, format_type := none } from by simp [mainStep, hb]]
      rw [countNB_cons_blank hb]
      refine ih c (n + 1) ?_ (fun l2 hl2 hnb => hval l2 (List.mem_cons_of_mem _ hl2) hnb)
      rw [firstNB_cons_blank hb] at hdet
      exact hdet
    · obtain ⟨l0, v0, hfirst, hP0, hdet0⟩ := hdet
      rw [firstNB_cons_nb hb] at hfirst
      injection hfirst with hl0
      rw [← hl0] at hP0
      obtain ⟨v, hv, hval0⟩ := hval l (List.mem_cons_self _ _) hb
      rw [hP0] at hv
      injection hv with hvv
      rw [← hvv] at hval0
      have hcp : checkRecord (some fmt) n v0 = COut.pass := checkRecord_pass hval0
      rw [runLines, show mainStep P { line_count := c, format_type := none } n l =
        SOut.next { line_count := c + 1, format_type := some fmt } from by
          simp [mainStep, hb, hP0, hdet0, hcp]]
      rw [countNB_cons_nb hb]
      have e : c + (countNB rest + 1) = (c + 1) + countNB rest := by omega
      rw [e]
      exact runLines_locked_valid P fmt rest (c + 1) (n + 1)
        (fun l2 hl2 hnb => hval l2 (List.mem_cons_of_mem _ hl2) hnb)

theorem runLines_noFmt (P : LineParse) :
    ∀ (ls : List String) (c n : Nat),
      (∀ l ∈ ls, pyStrip l ≠ "" → ∃ v, P l = Except.ok v ∧ detectFmt v = Except.ok none) →
      runLines P { line_count := c, format_type := none } n ls =
        Except.ok (true, mainOkMsg none (c + countNB ls), c + countNB ls) := by
  intro ls
  induction ls with
  | nil => intro c n _; simp [runLines, countNB]
  | cons l rest ih =>
    intro c n h
    by_cases hb : pyStrip l = ""
    · rw [runLines, show mainStep P { line_count := c, format_type := none } n l =
        SOut.next { line_count := c, format_type := none } from by simp [mainStep, hb]]
      rw [countNB_cons_blank hb]
      exact ih c (n + 1) (fun l2 hl2 hnb => h l2 (List.mem_cons_of_mem _ hl2) hnb)
    · obtain ⟨v, hv, hd⟩ := h l (List.mem_cons_self _ _) hb
      rw [runLines, show mainStep P { line_count := c, format_type := none } n l =
        SOut.next { line_count := c + 1, format_type := none } from by
          simp [mainStep, hb, hv, hd, checkRecord]]
      rw [countNB_cons_nb hb]
      have e : c + (countNB rest + 1) = (c + 1) + countNB rest := by omega
      rw [e]
      exact ih (c + 1) (n + 1) (fun l2 hl2 hnb => h l2 (List.mem_cons_of_mem _ hl2) hnb)

theorem runLines_all_blank (P : LineParse) :
    ∀ (ls : List String) (st : VState) (n : Nat),
      (∀ l ∈ ls, pyStrip l = "") →
      runLines P st n ls =
        Except.ok (true, mainOkMsg st.format_type st.line_count, st.line_count) := by
  intro ls
  induction ls with
  | nil => intro st n _; simp [runLines]
  | cons l rest ih =>
    intro st n h
    have hb : pyStrip l = "" := h l (List.mem_cons_self _ _)
    rw [runLines, show mainStep P st n l = SOut.next st from by simp [mainStep, hb]]
    exact ih st (n + 1) (fun l2 hl2 => h l2 (List.mem_cons_of_mem _ hl2))

/-! Shape of every early return of the main validator: the verdict is
false, the count is 0, and the message names the current line. -/

theorem checkMsgs_ret_shape (n : Nat) :
    ∀ (xs : List JValue) (r : Bool × String × Nat),
      checkMsgs n xs = COut.ret r → ∃ s, r = (false, lineMsg n s, 0) := by
  intro xs
  induction xs with
  | nil => intro r h; simp [checkMsgs] at h
  | cons x rest ih =>
    intro r h
    rw [checkMsgs] at h
    split at h
    · simp at h
    · injection h with h3; exact ⟨_, h3.symm⟩
    · split at h
      · simp at h
      · injection h with h3; exact ⟨_, h3.symm⟩
      · exact ih r h

theorem checkChat_ret_shape {n : Nat} {v : JValue} {r : Bool × String × Nat}
    (h : checkChat n v = COut.ret r) : ∃ s, r = (false, lineMsg n s, 0) := by
  rw [checkChat] at h
  split at h
  · simp at h
  · injection h with h3; exact ⟨_, h3.symm⟩
  · split at h
    · simp at h
    · split at h
      · split at h
        · injection h with h3; exact ⟨_, h3.symm⟩
        · exact checkMsgs_ret_shape n _ r h
      · injection h with h3; exact ⟨_, h3.symm⟩

theorem checkLegacy_ret_shape {n : Nat} {v : JValue} {r : Bool × String × Nat}
    (h : checkLegacy n v = COut.ret r) : ∃ s, r = (false, lineMsg n s, 0) := by
  rw [checkLegacy] at h
  split at h
  · simp at h
  · injection h with h3; exact ⟨_, h3.symm⟩
  · split at h
    · simp at h
    · injection h with h3; exact ⟨_, h3.symm⟩
    · simp at h

theorem checkRecord_ret_shape {fmt : Option JFormat} {n : Nat} {v : JValue}
    {r : Bool × String × Nat} (h : checkRecord fmt n v = COut.ret r) :
    ∃ s, r = (false, lineMsg n s, 0) := by
  cases fmt with
  | none => simp [checkRecord] at h
  | some f =>
    cases f with
    | chat => exact checkChat_ret_shape h
    | legacy => exact checkLegacy_ret_shape h

theorem mainStep_ret_shape {P : LineParse} {st : VState} {n : Nat} {l : String}
    {r : Bool × String × Nat} (h : mainStep P st n l = SOut.ret r) :
    pyStrip l ≠ "" ∧ ∃ s, r = (false, lineMsg n s, 0) := by
  rw [mainStep] at h
  split at h
  · simp at h
  · rename_i hb
    refine ⟨hb, ?_⟩
    split at h
    · injection h with h3; exact ⟨_, h3.symm⟩
    · split at h
      · simp at h
      · split at h
        · simp at h
        · rename_i hcr
          injection h with h3
          obtain ⟨s, hs⟩ := checkRecord_ret_shape hcr
          exact ⟨s, by rw [← h3, hs]⟩
        · simp at h

theorem runLines_false_shape (P : LineParse) :
    ∀ (ls : List String) (st : VState) (n : Nat) (m : String) (c : Nat),
      runLines P st n ls = Except.ok (false, m, c) →
      c = 0 ∧ ∃ k l s, ls.get? k = some l ∧ pyStrip l ≠ "" ∧ m = lineMsg (n + k) s := by
  intro ls
  induction ls with
  | nil =>
    intro st n m c h
    simp [runLines] at h
  | cons l rest ih =>
    intro st n m c h
    rw [runLines] at h
    split at h
    · obtain ⟨hc, k, l2, s, hk, hnb2, hm⟩ := ih _ _ _ _ h
      refine ⟨hc, k + 1, l2, s, by simpa using hk, hnb2, ?_⟩
      rw [hm]
      congr 1
      omega
    · rename_i r hstep
      injection h with h2
      obtain ⟨hnb, s, hs⟩ := mainStep_ret_shape hstep
      have key : (false, m, c) = ((false, lineMsg n s, 0) : Bool × String × Nat) :=
        h2.symm.trans hs
      have hm : m = lineMsg n s := congrArg (fun p => p.2.1) key
      have hc : c = 0 := congrArg (fun p => p.2.2) key
      refine ⟨hc, 0, l, s, rfl, hnb, ?_⟩
      rw [Nat.add_zero]
      exact hm
    · simp at h

/-! Composition of the loop over an exception-free and return-free
initial segment. -/

theorem runLines_append (P : LineParse) :
    ∀ (l1 : List String) (st st2 : VState) (n : Nat) (l2 : List String),
      stateAfter P st n l1 = some st2 →
      runLines P st n (l1 ++ l2) = runLines P st2 (n + l1.length) l2 := by
  intro l1
  induction l1 with
  | nil =>
    intro st st2 n l2 h
    rw [stateAfter] at h
    injection h with h2
    subst h2
    simp
  | cons l rest ih =>
    intro st st2 n l2 h
    rw [stateAfter] at h
    split at h
    · rename_i st3 hstep
      rw [List.cons_append, runLines, hstep]
      show runLines P st3 (n + 1) (rest ++ l2) = runLines P st2 (n + (l :: rest).length) l2
      rw [ih st3 st2 (n + 1) l2 h]
      congr 1
      rw [List.length_cons]
      omega
    · simp at h

/-! Lock persistence: the main loop started in a locked state coincides
with the spec-side loop that never re-detects and always applies the
locked format rules. -/

theorem runLines_locked_eq (P : LineParse) (f : JFormat) :
    ∀ (ls : List String) (c n : Nat),
      runLines P { line_count := c, format_type := some f } n ls = runLocked P f c n ls := by
  intro ls
  induction ls with
  | nil => intro c n; rfl
  | cons l rest ih =>
    intro c n
    rw [runLines, runLocked]
    by_cases hb : pyStrip l = ""
    · rw [if_pos hb, show mainStep P { line_count := c, format_type := some f } n l =
        SOut.next { line_count := c, format_type := some f } from by simp [mainStep, hb]]
      exact ih c (n + 1)
    · rw [if_neg hb]
      cases hP : P l with
      | error e =>
        rw [show mainStep P { line_count := c, format_type := some f } n l =
          SOut.ret (false, lineMsg n ("JSON形式エラー - " ++ e), 0) from by
            simp [mainStep, hb, hP]]
      | ok data =>
        cases hc : checkRecord (some f) n data with
        | pass =>
          rw [show mainStep P { line_count := c, format_type := some f } n l =
            SOut.next { line_count := c + 1, format_type := some f } from by
              simp [mainStep, hb, hP, hc]]
          show runLines P { line_count := c + 1, format_type := some f } (n + 1) rest =
            (match checkRecord (some f) n data with
             | COut.pass => runLocked P f (c + 1) (n + 1) rest
             | COut.ret r => Except.ok r
             | COut.raise e => Except.error e)
          rw [hc]
          exact ih (c + 1) (n + 1)
        | ret r =>
          rw [show mainStep P { line_count := c, format_type := some f } n l =
            SOut.ret r from by simp [mainStep, hb, hP, hc]]
          show Except.ok r =
            (match checkRecord (some f) n data with
             | COut.pass => runLocked P f (c + 1) (n + 1) rest
             | COut.ret r => Except.ok r
             | COut.raise e => Except.error e)
          rw [hc]
        | raise e2 =>
          rw [show mainStep P { line_count := c, format_type := some f } n l =
            SOut.raise e2 from by simp [mainStep, hb, hP, hc]]
          show Except.error e2 =
            (match checkRecord (some f) n data with
             | COut.pass => runLocked P f (c + 1) (n + 1) rest
             | COut.ret r => Except.ok r
             | COut.raise e => Except.error e)
          rw [hc]

/-! Claim theorems. -/

/-- C5: once the format is locked to f during a validation pass it
never changes for the remainder of the pass: from any locked state the
main loop behaves exactly like the reference loop runLocked, which
never re-detects and validates every subsequent record, including one
shaped like the other format, against the rules of f alone. -/
theorem c5_format_lock_persists (P : LineParse) (ls : List String) (c n : Nat) (f : JFormat) :
    runLines P { line_count := c, format_type := some f } n ls = runLocked P f c n ls :=
  runLines_locked_eq P f ls c n

/-- C1 (amended): if the first non-blank, successfully parsed record
contains neither a messages field nor both prompt and completion, the
format merely stays undetermined so far; detection re-runs on later
records.  Only when every parsed record of the pass lacks recognizable
keys does the format stay undetermined for the whole pass, in which
case no format-specific check ever rejects and validation succeeds
with the fallback label. -/
theorem c1_undetermined_persists (P : LineParse) (content : String)
    (h : ∀ l ∈ pyLines content, pyStrip l ≠ "" →
      ∃ v, P l = Except.ok v ∧ detectFmt v = Except.ok none) :
    validate_jsonl P content =
      Except.ok (true, mainOkMsg none (countNB (pyLines content)),
        countNB (pyLines content)) := by
  unfold validate_jsonl
  have := runLines_noFmt P (pyLines content) 0 1 h
  simpa using this

/-- C1 counterexample: the first parsed record is an empty mapping
with no recognizable keys, yet the second record is still subjected to
the chat structural check and rejected, refuting the claim that no
format-specific check applies to any later record. -/
theorem c1_counterexample :
    demoParse "\x7b\x7d" = Except.ok (JValue.obj []) ∧
    detectFmt (JValue.obj []) = Except.ok none ∧
    validate_jsonl demoParse "\x7b\x7d\n\x7b\"messages\":[]\x7d" =
      Except.ok (false, lineMsg 2 "\u0027messages\u0027が無効です", 0) :=
  ⟨rfl, rfl, rfl⟩

theorem c1_witness :
    validate_jsonl demoParse "\x7b\x7d" =
      Except.ok (true, mainOkMsg none (countNB (pyLines "\x7b\x7d")),
        countNB (pyLines "\x7b\x7d")) :=
  c1_undetermined_persists demoParse _ (by
    intro l hl hnb
    rw [show pyLines "\x7b\x7d" = ["\x7b\x7d"] from rfl] at hl
    rw [List.mem_singleton] at hl
    subst hl
    exact ⟨JValue.obj [], rfl, rfl⟩)

/-- C2 (amended): when line N, 1-indexed over the lines of the
whitespace-stripped content, is the first non-blank line failing to
parse and every earlier line is processed without an early return or
exception, validation returns false with a message referencing exactly
line N together with the parser diagnostic, and the lines after N do
not influence the result. -/
theorem c2_first_parse_error_reported (P : LineParse) (content : String)
    (pre post : List String) (l : String) (st : VState) (e : String)
    (hsplit : pyLines content = pre ++ l :: post)
    (hpre : stateAfter P { line_count := 0, format_type := none } 1 pre = some st)
    (hnb : pyStrip l ≠ "")
    (hparse : P l = Except.error e) :
    validate_jsonl P content =
      Except.ok (false, lineMsg (pre.length + 1) ("JSON形式エラー - " ++ e), 0) := by
  unfold validate_jsonl
  rw [hsplit, runLines_append P pre _ st 1 (l :: post) hpre, runLines]
  rw [show mainStep P st (1 + pre.length) l =
    SOut.ret (false, lineMsg (1 + pre.length) ("JSON形式エラー - " ++ e), 0) from by
      simp [mainStep, hnb, hparse]]
  rw [Nat.add_comm 1 pre.length]

/-- C2 counterexample: in the supplied text the first non-blank line
that fails to parse is line 3 (after a blank line and a parseable
line), but the validator reports line 1 with a chat structural error
instead of the parser diagnostic: line numbers are relative to the
stripped content, and an earlier structurally invalid line preempts
the parse failure. -/
theorem c2_counterexample :
    demoParse "\x7b\"messages\":[]\x7d" =
      Except.ok (JValue.obj [("messages", JValue.arr [])]) ∧
    demoParse "bad(" = Except.error "Expecting value" ∧
    validate_jsonl demoParse "\n\x7b\"messages\":[]\x7d\nbad(" =
      Except.ok (false, lineMsg 1 "\u0027messages\u0027が無効です", 0) :=
  ⟨rfl, rfl, rfl⟩

theorem c2_witness :
    validate_jsonl demoParse "\x7b\x7d\nbad(" =
      Except.ok (false, lineMsg 2 ("JSON形式エラー - " ++ "Expecting value"), 0) :=
  c2_first_parse_error_reported demoParse _ ["\x7b\x7d"] [] "bad("
    { line_count := 1, format_type := none } "Expecting value" rfl rfl (by decide) rfl

/-- C3: the code, evaluated at the failing input.  A chat-locked
record whose messages sequence contains the non-mapping element 5
makes the membership test role in msg raise TypeError, which only the
parse-error handler cannot catch, so validate_jsonl raises instead of
returning a rejection verdict: the claim (and the spec) promise a
returned ok = false here. -/
theorem c3_uncaught_typeerror :
    validate_jsonl demoParse "\x7b\"messages\": [5]\x7d" =
      Except.error "argument of type \u0027int\u0027 is not iterable" := rfl

/-- C4: when every non-blank line parses and is valid for the format
detected from the first non-blank line, validation succeeds and the
returned count equals the number of non-blank lines. -/
theorem c4_valid_inputs_accepted (P : LineParse) (content : String) (fmt : JFormat)
    (hdet : ∃ l v, firstNB (pyLines content) = some l ∧ P l = Except.ok v ∧
      detectFmt v = Except.ok (some fmt))
    (hval : ∀ l ∈ pyLines content, pyStrip l ≠ "" →
      ∃ v, P l = Except.ok v ∧ validRecord fmt v = true) :
    ∃ m, validate_jsonl P content =
      Except.ok (true, m, countNB (pyLines content)) := by
  refine ⟨mainOkMsg (some fmt) (countNB (pyLines content)), ?_⟩
  unfold validate_jsonl
  have := runLines_detect_valid P fmt (pyLines content) 0 1 hdet hval
  simpa using this

theorem c4_witness :
    ∃ m, validate_jsonl demoParse
        "\x7b\"messages\":[\x7b\"role\":\"user\",\"content\":\"hi\"\x7d]\x7d" =
      Except.ok (true, m,
        countNB (pyLines "\x7b\"messages\":[\x7b\"role\":\"user\",\"content\":\"hi\"\x7d]\x7d")) :=
  c4_valid_inputs_accepted demoParse _ JFormat.chat
    ⟨"\x7b\"messages\":[\x7b\"role\":\"user\",\"content\":\"hi\"\x7d]\x7d",
      JValue.obj [("messages", JValue.arr
        [JValue.obj [("role", JValue.str "user"), ("content", JValue.str "hi")]])],
      rfl, rfl, rfl⟩
    (by
      intro l hl hnb
      rw [show pyLines "\x7b\"messages\":[\x7b\"role\":\"user\",\"content\":\"hi\"\x7d]\x7d" =
        ["\x7b\"messages\":[\x7b\"role\":\"user\",\"content\":\"hi\"\x7d]\x7d"] from rfl] at hl
      rw [List.mem_singleton] at hl
      subst hl
      exact ⟨JValue.obj [("messages", JValue.arr
        [JValue.obj [("role", JValue.str "user"), ("content", JValue.str "hi")]])], rfl, rfl⟩)

/-- C7: an input with zero non-blank lines is accepted with a count of
zero and a detail message carrying the fallback legacy format label,
although no format was ever detected. -/
theorem c7_empty_input_legacy_label (P : LineParse) (content : String)
    (h : ∀ l ∈ pyLines content, pyStrip l = "") :
    validate_jsonl P content = Except.ok (true, mainOkMsg none 0, 0) := by
  unfold validate_jsonl
  exact runLines_all_blank P (pyLines content) _ 1 h

theorem c7_witness :
    validate_jsonl demoParse "\n \n" = Except.ok (true, mainOkMsg none 0, 0) :=
  c7_empty_input_legacy_label demoParse _ (by
    intro l hl
    rw [show pyLines "\n \n" = [""] from rfl] at hl
    rw [List.mem_singleton] at hl
    subst hl
    rfl)

/-- C9: whenever the main validator returns a false verdict, the count
component of the returned triple is exactly zero, however many valid
records preceded the offending line. -/
theorem c9_false_zero_count (P : LineParse) (content : String) (m : String) (c : Nat)
    (h : validate_jsonl P content = Except.ok (false, m, c)) : c = 0 :=
  (runLines_false_shape P (pyLines content) _ 1 m c h).1

theorem c9_witness : (0 : Nat) = 0 :=
  c9_false_zero_count demoParse "bad("
    (lineMsg 1 ("JSON形式エラー - " ++ "Expecting value")) 0 rfl

/-- C10: the validator is a pure function of the input text: runs on
equal contents with the same parser return identical triples.  The
embedding itself is stateless, mirroring the source, which reads no
external state and performs no IO. -/
theorem c10_deterministic (P : LineParse) (c1 c2 : String) (h : c1 = c2) :
    validate_jsonl P c1 = validate_jsonl P c2 := by rw [h]

theorem c10_witness : validate_jsonl demoParse "" = validate_jsonl demoParse "" :=
  c10_deterministic demoParse "" "" rfl

/-! Line numbers only influence diagnostic wording: every per-record
check, for a fixed record, either passes for every line number,
returns a false verdict whose message is the line number applied to a
fixed body, or raises a fixed exception. -/

theorem checkMsgs_cases :
    ∀ xs : List JValue,
      (∀ n, checkMsgs n xs = COut.pass) ∨
      (∃ body, ∀ n, checkMsgs n xs = COut.ret (false, lineMsg n body, 0)) ∨
      (∃ e, ∀ n, checkMsgs n xs = COut.raise e) := by
  intro xs
  induction xs with
  | nil => exact Or.inl (fun n => rfl)
  | cons x rest ih =>
    cases h1 : pyContains "role" x with
    | error e1 => exact Or.inr (Or.inr ⟨e1, fun n => by rw [checkMsgs, h1]⟩)
    | ok b1 =>
      cases b1 with
      | false =>
        exact Or.inr (Or.inl ⟨"メッセージ形式が不正です", fun n => by rw [checkMsgs, h1]⟩)
      | true =>
        cases h2 : pyContains "content" x with
        | error e2 => exact Or.inr (Or.inr ⟨e2, fun n => by rw [checkMsgs, h1, h2]⟩)
        | ok b2 =>
          cases b2 with
          | false =>
            exact Or.inr (Or.inl ⟨"メッセージ形式が不正です", fun n => by rw [checkMsgs, h1, h2]⟩)
          | true =>
            rcases ih with hp | ⟨body, hr⟩ | ⟨e, he⟩
            · exact Or.inl (fun n => by rw [checkMsgs, h1, h2]; exact hp n)
            · exact Or.inr (Or.inl ⟨body, fun n => by rw [checkMsgs, h1, h2]; exact hr n⟩)
            · exact Or.inr (Or.inr ⟨e, fun n => by rw [checkMsgs, h1, h2]; exact he n⟩)

theorem checkChat_cases (v : JValue) :
    (∀ n, checkChat n v = COut.pass) ∨
    (∃ body, ∀ n, checkChat n v = COut.ret (false, lineMsg n body, 0)) ∨
    (∃ e, ∀ n, checkChat n v = COut.raise e) := by
  cases h1 : pyContains "messages" v with
  | error e1 => exact Or.inr (Or.inr ⟨e1, fun n => by rw [checkChat, h1]⟩)
  | ok b1 =>
    cases b1 with
    | false =>
      exact Or.inr (Or.inl ⟨"\u0027messages\u0027キーがありません", fun n => by rw [checkChat, h1]⟩)
    | true =>
      cases h2 : pySubscript v "messages" with
      | error e2 => exact Or.inr (Or.inr ⟨e2, fun n => by rw [checkChat, h1, h2]⟩)
      | ok messages =>
        cases messages with
        | arr xs =>
          cases xs with
          | nil =>
            exact Or.inr (Or.inl ⟨"\u0027messages\u0027が無効です",
              fun n => by simp [checkChat, h1, h2]⟩)
          | cons y ys =>
            rcases checkMsgs_cases (y :: ys) with hp | ⟨body, hr⟩ | ⟨e, he⟩
            · exact Or.inl (fun n => by rw [checkChat, h1, h2]; exact hp n)
            · exact Or.inr (Or.inl ⟨body, fun n => by rw [checkChat, h1, h2]; exact hr n⟩)
            · exact Or.inr (Or.inr ⟨e, fun n => by rw [checkChat, h1, h2]; exact he n⟩)
        | null =>
          exact Or.inr (Or.inl ⟨"\u0027messages\u0027が無効です", fun n => by rw [checkChat, h1, h2]⟩)
        | bool b =>
          exact Or.inr (Or.inl ⟨"\u0027messages\u0027が無効です", fun n => by rw [checkChat, h1, h2]⟩)
        | num m =>
          exact Or.inr (Or.inl ⟨"\u0027messages\u0027が無効です", fun n => by rw [checkChat, h1, h2]⟩)
        | str s =>
          exact Or.inr (Or.inl ⟨"\u0027messages\u0027が無効です", fun n => by rw [checkChat, h1, h2]⟩)
        | obj kvs =>
          exact Or.inr (Or.inl ⟨"\u0027messages\u0027が無効です", fun n => by rw [checkChat, h1, h2]⟩)

theorem checkLegacy_cases (v : JValue) :
    (∀ n, checkLegacy n v = COut.pass) ∨
    (∃ body, ∀ n, checkLegacy n v = COut.ret (false, lineMsg n body, 0)) ∨
    (∃ e, ∀ n, checkLegacy n v = COut.raise e) := by
  cases h1 : pyContains "prompt" v with
  | error e1 => exact Or.inr (Or.inr ⟨e1, fun n => by rw [checkLegacy, h1]⟩)
  | ok b1 =>
    cases b1 with
    | false =>
      exact Or.inr (Or.inl ⟨"\u0027prompt\u0027または\u0027completion\u0027がありません",
        fun n => by rw [checkLegacy, h1]⟩)
    | true =>
      cases h2 : pyContains "completion" v with
      | error e2 => exact Or.inr (Or.inr ⟨e2, fun n => by rw [checkLegacy, h1, h2]⟩)
      | ok b2 =>
        cases b2 with
        | false =>
          exact Or.inr (Or.inl ⟨"\u0027prompt\u0027または\u0027completion\u0027がありません",
            fun n => by rw [checkLegacy, h1, h2]⟩)
        | true => exact Or.inl (fun n => by rw [checkLegacy, h1, h2])

theorem checkRecord_cases (fmt : Option JFormat) (v : JValue) :
    (∀ n, checkRecord fmt n v = COut.pass) ∨
    (∃ body, ∀ n, checkRecord fmt n v = COut.ret (false, lineMsg n body, 0)) ∨
    (∃ e, ∀ n, checkRecord fmt n v = COut.raise e) := by
  cases fmt with
  | none => exact Or.inl (fun n => rfl)
  | some f =>
    cases f with
    | chat => exact checkChat_cases v
    | legacy => exact checkLegacy_cases v

theorem mainStep_cases (P : LineParse) (st : VState) (l : String) :
    (∃ st2, ∀ n, mainStep P st n l = SOut.next st2) ∨
    (∃ body, ∀ n, mainStep P st n l = SOut.ret (false, lineMsg n body, 0)) ∨
    (∃ e, ∀ n, mainStep P st n l = SOut.raise e) := by
  by_cases hb : pyStrip l = ""
  · exact Or.inl ⟨st, fun n => by rw [mainStep, if_pos hb]⟩
  · cases hP : P l with
    | error e1 =>
      exact Or.inr (Or.inl ⟨"JSON形式エラー - " ++ e1,
        fun n => by rw [mainStep, if_neg hb, hP]⟩)
    | ok data =>
      cases hd : (match st.format_type with
                  | some f => Except.ok (some f)
                  | none => detectFmt data) with
      | error e1 =>
        exact Or.inr (Or.inr ⟨e1, fun n => by simp only [mainStep, if_neg hb, hP, hd]⟩)
      | ok fmt =>
        rcases checkRecord_cases fmt data with hp | ⟨body, hr⟩ | ⟨e, he⟩
        · exact Or.inl ⟨{ line_count := st.line_count + 1, format_type := fmt },
            fun n => by simp only [mainStep, if_neg hb, hP, hd, hp n]⟩
        · exact Or.inr (Or.inl ⟨body,
            fun n => by simp only [mainStep, if_neg hb, hP, hd, hr n]⟩)
        · exact Or.inr (Or.inr ⟨e,
            fun n => by simp only [mainStep, if_neg hb, hP, hd, he n]⟩)

theorem SameVerdict_refl : ∀ x, SameVerdict x x
  | .error _ => rfl
  | .ok (_, _, _) => ⟨rfl, rfl, fun _ => rfl⟩

theorem SameVerdict_okOf {x y : Except String (Bool × String × Nat)}
    (h : SameVerdict x y) : okOf x = okOf y := by
  cases x with
  | error e1 =>
    cases y with
    | error e2 => rfl
    | ok r2 => exact h.elim
  | ok r1 =>
    obtain ⟨b1, m1, c1⟩ := r1
    cases y with
    | error e2 => exact h.elim
    | ok r2 =>
      obtain ⟨b2, m2, c2⟩ := r2
      obtain ⟨hbb, -, -⟩ := h
      simp [okOf, hbb]

theorem SameVerdict_countOf {x y : Except String (Bool × String × Nat)}
    (h : SameVerdict x y) : countOf x = countOf y := by
  cases x with
  | error e1 =>
    cases y with
    | error e2 => rfl
    | ok r2 => exact h.elim
  | ok r1 =>
    obtain ⟨b1, m1, c1⟩ := r1
    cases y with
    | error e2 => exact h.elim
    | ok r2 =>
      obtain ⟨b2, m2, c2⟩ := r2
      obtain ⟨-, hcc, -⟩ := h
      simp [countOf, hcc]

theorem runLines_num_rel (P : LineParse) :
    ∀ (ls : List String) (st : VState) (n₁ n₂ : Nat),
      SameVerdict (runLines P st n₁ ls) (runLines P st n₂ ls) := by
  intro ls
  induction ls with
  | nil => intro st n₁ n₂; exact ⟨rfl, rfl, fun _ => rfl⟩
  | cons l rest ih =>
    intro st n₁ n₂
    rcases mainStep_cases P st l with ⟨st2, hnext⟩ | ⟨body, hret⟩ | ⟨e, hraise⟩
    · rw [runLines, hnext n₁, runLines, hnext n₂]
      exact ih st2 (n₁ + 1) (n₂ + 1)
    · rw [runLines, hret n₁, runLines, hret n₂]
      exact ⟨rfl, rfl, fun hcontra => absurd hcontra (by decide)⟩
    · rw [runLines, hraise n₁, runLines, hraise n₂]
      exact rfl

theorem stateAfter_append_blank (P : LineParse) (b : String) (hb : pyStrip b = "") :
    ∀ (pre : List String) (st : VState) (n : Nat),
      stateAfter P st n (pre ++ [b]) = stateAfter P st n pre := by
  intro pre
  induction pre with
  | nil =>
    intro st n
    have hstep : mainStep P st n b = SOut.next st := by simp [mainStep, hb]
    simp only [List.nil_append, stateAfter, hstep]
  | cons l pre2 ih =>
    intro st n
    rw [List.cons_append, stateAfter, stateAfter]
    cases hs : mainStep P st n l with
    | next st2 => exact ih st2 (n + 1)
    | ret r => rfl
    | raise e => rfl

theorem runLines_blank_insert (P : LineParse) (b : String) (hb : pyStrip b = "") :
    ∀ (pre post : List String) (st : VState) (n : Nat),
      SameVerdict (runLines P st n (pre ++ b :: post)) (runLines P st n (pre ++ post)) := by
  intro pre
  induction pre with
  | nil =>
    intro post st n
    rw [List.nil_append, List.nil_append, runLines,
      show mainStep P st n b = SOut.next st from by simp [mainStep, hb]]
    exact runLines_num_rel P post st (n + 1) n
  | cons l pre2 ih =>
    intro post st n
    rw [List.cons_append, List.cons_append, runLines, runLines]
    cases hs : mainStep P st n l with
    | next st2 => exact ih post st2 (n + 1)
    | ret r => exact SameVerdict_refl _
    | raise e => exact rfl

/-- C6: blank lines are immaterial.  A line that is empty after
trimming adds nothing to the state reached by the loop (neither to the
count nor to format detection); deleting it changes neither the
verdict nor the returned count of the whole pass; and the line
referenced by any reported rejection is a non-blank line of the
processed line list. -/
theorem c6_blank_lines_immaterial (P : LineParse) (pre post : List String) (b : String)
    (hb : pyStrip b = "") :
    stateAfter P { line_count := 0, format_type := none } 1 (pre ++ [b]) =
      stateAfter P { line_count := 0, format_type := none } 1 pre ∧
    okOf (runLines P { line_count := 0, format_type := none } 1 (pre ++ b :: post)) =
      okOf (runLines P { line_count := 0, format_type := none } 1 (pre ++ post)) ∧
    countOf (runLines P { line_count := 0, format_type := none } 1 (pre ++ b :: post)) =
      countOf (runLines P { line_count := 0, format_type := none } 1 (pre ++ post)) ∧
    (∀ m c, runLines P { line_count := 0, format_type := none } 1 (pre ++ b :: post) =
        Except.ok (false, m, c) →
      ∃ k l s, (pre ++ b :: post).get? k = some l ∧ pyStrip l ≠ "" ∧
        m = lineMsg (1 + k) s) := by
  refine ⟨stateAfter_append_blank P b hb pre _ 1, ?_, ?_, ?_⟩
  · exact SameVerdict_okOf (runLines_blank_insert P b hb pre post _ 1)
  · exact SameVerdict_countOf (runLines_blank_insert P b hb pre post _ 1)
  · intro m c h
    exact (runLines_false_shape P _ _ 1 m c h).2

theorem c6_witness :
    pyStrip " " = "" ∧
    (stateAfter demoParse { line_count := 0, format_type := none } 1
        (["\x7b\x7d"] ++ [" "]) =
      stateAfter demoParse { line_count := 0, format_type := none } 1 ["\x7b\x7d"] ∧
    okOf (runLines demoParse { line_count := 0, format_type := none } 1
        (["\x7b\x7d"] ++ " " :: ["5x"])) =
      okOf (runLines demoParse { line_count := 0, format_type := none } 1
        (["\x7b\x7d"] ++ ["5x"])) ∧
    countOf (runLines demoParse { line_count := 0, format_type := none } 1
        (["\x7b\x7d"] ++ " " :: ["5x"])) =
      countOf (runLines demoParse { line_count := 0, format_type := none } 1
        (["\x7b\x7d"] ++ ["5x"])) ∧
    (∀ m c, runLines demoParse { line_count := 0, format_type := none } 1
        (["\x7b\x7d"] ++ " " :: ["5x"]) = Except.ok (false, m, c) →
      ∃ k l s, (["\x7b\x7d"] ++ " " :: ["5x"]).get? k = some l ∧ pyStrip l ≠ "" ∧
        m = lineMsg (1 + k) s)) :=
  ⟨rfl, c6_blank_lines_immaterial demoParse ["\x7b\x7d"] ["5x"] " " rfl⟩

/-! Correspondence of the two validators: identical control flow and
verdicts, differing only in diagnostic wording, except that the
upload validator catches every exception at the top level. -/

theorem uploadCheckMsgs_rel (n : Nat) :
    ∀ xs : List JValue, CRel (checkMsgs n xs) (uploadCheckMsgs n xs) := by
  intro xs
  induction xs with
  | nil => exact trivial
  | cons x rest ih =>
    rw [checkMsgs, uploadCheckMsgs]
    cases h1 : pyContains "role" x with
    | error e1 => exact rfl
    | ok b1 =>
      cases b1 with
      | false => exact rfl
      | true =>
        cases h2 : pyContains "content" x with
        | error e2 => exact rfl
        | ok b2 =>
          cases b2 with
          | false => exact rfl
          | true => exact ih

theorem uploadCheckChat_rel (n : Nat) (v : JValue) :
    CRel (checkChat n v) (uploadCheckChat n v) := by
  rw [checkChat, uploadCheckChat]
  cases h1 : pyContains "messages" v with
  | error e1 => exact rfl
  | ok b1 =>
    cases b1 with
    | false => exact rfl
    | true =>
      cases h2 : pySubscript v "messages" with
      | error e2 => exact rfl
      | ok messages =>
        cases messages with
        | arr xs =>
          cases xs with
          | nil => exact rfl
          | cons y ys => exact uploadCheckMsgs_rel n (y :: ys)
        | null => exact rfl
        | bool b => exact rfl
        | num m => exact rfl
        | str s => exact rfl
        | obj kvs => exact rfl

theorem uploadCheckLegacy_rel (n : Nat) (v : JValue) :
    CRel (checkLegacy n v) (uploadCheckLegacy n v) := by
  rw [checkLegacy, uploadCheckLegacy]
  cases h1 : pyContains "prompt" v with
  | error e1 => exact rfl
  | ok b1 =>
    cases b1 with
    | false => exact rfl
    | true =>
      cases h2 : pyContains "completion" v with
      | error e2 => exact rfl
      | ok b2 =>
        cases b2 with
        | false => exact rfl
        | true => exact trivial

theorem uploadCheckRecord_rel (fmt : Option JFormat) (n : Nat) (v : JValue) :
    CRel (checkRecord fmt n v) (uploadCheckRecord fmt n v) := by
  cases fmt with
  | none => exact trivial
  | some f =>
    cases f with
    | chat => exact uploadCheckChat_rel n v
    | legacy => exact uploadCheckLegacy_rel n v

theorem uploadStep_rel (P : LineParse) (st : VState) (n : Nat) (l : String) :
    SRel (mainStep P st n l) (uploadStep P st n l) := by
  by_cases hb : pyStrip l = ""
  · rw [show mainStep P st n l = SOut.next st from by simp [mainStep, hb],
      show uploadStep P st n l = SOut.next st from by simp [uploadStep, hb]]
    exact rfl
  · cases hP : P l with
    | error e1 =>
      rw [show mainStep P st n l =
          SOut.ret (false, lineMsg n ("JSON形式エラー - " ++ e1), 0) from by
            simp [mainStep, hb, hP],
        show uploadStep P st n l =
          SOut.ret (false, lineMsg n ("JSON形式が正しくありません - " ++ e1)) from by
            simp [uploadStep, hb, hP]]
      exact rfl
    | ok data =>
      cases hd : (match st.format_type with
                  | some f => Except.ok (some f)
                  | none => detectFmt data) with
      | error e1 =>
        rw [show mainStep P st n l = SOut.raise e1 from by
            simp only [mainStep, if_neg hb, hP, hd],
          show uploadStep P st n l = SOut.raise e1 from by
            simp only [uploadStep, if_neg hb, hP, hd]]
        exact rfl
      | ok fmt =>
        have rel := uploadCheckRecord_rel fmt n data
        cases hc : checkRecord fmt n data with
        | pass =>
          cases hu : uploadCheckRecord fmt n data with
          | pass =>
            rw [show mainStep P st n l =
                SOut.next { line_count := st.line_count + 1, format_type := fmt } from by
                  simp only [mainStep, if_neg hb, hP, hd, hc],
              show uploadStep P st n l =
                SOut.next { line_count := st.line_count + 1, format_type := fmt } from by
                  simp only [uploadStep, if_neg hb, hP, hd, hu]]
            exact rfl
          | ret r2 => rw [hc, hu] at rel; exact rel.elim
          | raise e2 => rw [hc, hu] at rel; exact rel.elim
        | ret r =>
          cases hu : uploadCheckRecord fmt n data with
          | pass => rw [hc, hu] at rel; exact rel.elim
          | ret r2 =>
            rw [show mainStep P st n l = SOut.ret r from by
                simp only [mainStep, if_neg hb, hP, hd, hc],
              show uploadStep P st n l = SOut.ret r2 from by
                simp only [uploadStep, if_neg hb, hP, hd, hu]]
            rw [hc, hu] at rel
            obtain ⟨b1, m1, c1⟩ := r
            obtain ⟨b2, m2⟩ := r2
            exact rel
          | raise e2 => rw [hc, hu] at rel; exact rel.elim
        | raise e1 =>
          cases hu : uploadCheckRecord fmt n data with
          | pass => rw [hc, hu] at rel; exact rel.elim
          | ret r2 => rw [hc, hu] at rel; exact rel.elim
          | raise e2 =>
            rw [show mainStep P st n l = SOut.raise e1 from by
                simp only [mainStep, if_neg hb, hP, hd, hc],
              show uploadStep P st n l = SOut.raise e2 from by
                simp only [uploadStep, if_neg hb, hP, hd, hu]]
            rw [hc, hu] at rel
            exact rel

theorem uploadRunLines_rel (P : LineParse) :
    ∀ (ls : List String) (st : VState) (n : Nat),
      RRel (runLines P st n ls) (uploadRunLines P st n ls) := by
  intro ls
  induction ls with
  | nil => intro st n; exact rfl
  | cons l rest ih =>
    intro st n
    rw [runLines, uploadRunLines]
    have srel := uploadStep_rel P st n l
    cases hs : mainStep P st n l with
    | next st2 =>
      cases hu : uploadStep P st n l with
      | next st3 =>
        rw [hs, hu] at srel
        rw [← srel]
        exact ih st2 (n + 1)
      | ret r2 => rw [hs, hu] at srel; exact srel.elim
      | raise e2 => rw [hs, hu] at srel; exact srel.elim
    | ret r =>
      cases hu : uploadStep P st n l with
      | next st3 => rw [hs, hu] at srel; exact srel.elim
      | ret r2 =>
        rw [hs, hu] at srel
        obtain ⟨b1, m1, c1⟩ := r
        obtain ⟨b2, m2⟩ := r2
        exact srel
      | raise e2 => rw [hs, hu] at srel; exact srel.elim
    | raise e1 =>
      cases hu : uploadStep P st n l with
      | next st3 => rw [hs, hu] at srel; exact srel.elim
      | ret r2 => rw [hs, hu] at srel; exact srel.elim
      | raise e2 => rw [hs, hu] at srel; exact srel

/-- C8 (amended): whenever the main.py validator completes without an
uncaught exception, the two validators return the same ok verdict on
the same sequence of lines, their messages differing only in wording;
when the main.py validator raises, the upload validator instead
returns a false verdict, because its enclosing try/except Exception
converts the exception into a rejection. -/
theorem c8_verdict_agreement (P : LineParse) (ls : List String) :
    (∀ b m c, runLines P { line_count := 0, format_type := none } 1 ls =
        Except.ok (b, m, c) → (upload_validate_jsonl P ls).1 = b) ∧
    (∀ e, runLines P { line_count := 0, format_type := none } 1 ls =
        Except.error e → (upload_validate_jsonl P ls).1 = false) := by
  have rel := uploadRunLines_rel P ls { line_count := 0, format_type := none } 1
  constructor
  · intro b m c h
    rw [h] at rel
    unfold upload_validate_jsonl
    cases hu : uploadRunLines P { line_count := 0, format_type := none } 1 ls with
    | ok r2 =>
      rw [hu] at rel
      obtain ⟨b2, m2⟩ := r2
      exact rel.symm
    | error e2 => rw [hu] at rel; exact rel.elim
  · intro e h
    rw [h] at rel
    unfold upload_validate_jsonl
    cases hu : uploadRunLines P { line_count := 0, format_type := none } 1 ls with
    | ok r2 => rw [hu] at rel; exact rel.elim
    | error e2 => rfl

/-- C8 counterexample: on the single line 5, the main.py validator
raises an uncaught TypeError (it yields no verdict at all), while the
upload validator returns a false verdict, so the two validators do not
return the same ok verdict on every line sequence. -/
theorem c8_counterexample :
    runLines demoParse { line_count := 0, format_type := none } 1 ["5"] =
      Except.error "argument of type 'int' is not iterable" ∧
    upload_validate_jsonl demoParse ["5"] =
      (false, "バリデーションエラー: argument of type 'int' is not iterable") :=
  ⟨rfl, rfl⟩

theorem c8_witness : (upload_validate_jsonl demoParse ["5"]).1 = false :=
  (c8_verdict_agreement demoParse ["5"]).2
    "argument of type 'int' is not iterable" rfl
